import Mathlib

/-!
Verification of the CMDB core of insightcivic/jules (src/app.py).

The file shallowly embeds the data model (ConfigurationItem, Relationship),
the storage state, and the CRUD / query operations of the Flask API and UI
routes, and proves or refutes the frozen claims about them.

Modelling conventions:
- The SQLAlchemy tables are lists kept in insertion order (SQLite returns
  rows of these small tables in rowid = insertion order when no ORDER BY is
  given), together with the next autoincrement primary keys.
- HTTP 400 responses from validation and duplicate-name branches and 404
  responses are modelled by the error kinds the spec names.
- Timestamps are abstract Nat values supplied by the caller ("now").
- The unique constraint on ci_name (app.py:19) plus the IntegrityError
  handler in create_ci (app.py:410-412) is modelled as an explicit
  uniqueness check with the same observable outcome (rollback + error).
- The ORM cascade "all, delete-orphan" on source_relationships and
  target_relationships (app.py:29-43) makes deleting a CI delete every
  relationship in which it appears; delete_ci models this by filtering
  the relationship table.
- Python str.lower and SQL ILIKE are modelled on ASCII via Char.toLower;
  all strings the claims mention are ASCII.
-/

deriving instance DecidableEq for Except

/-- Error kinds returned by the API (HTTP 400 validation, 400 duplicate
name, 404 not found), under the names the spec gives them. -/
inductive CmdbError where
  | validationError
  | notFoundError
  | duplicateNameError
deriving Repr, DecidableEq

/-- ConfigurationItem row (app.py:16-43). -/
structure CI where
  id : Nat
  ci_name : String
  ci_type : String
  status : String
  owner : Option String
  ip_location : Option String
  description : Option String
  last_updated : Nat
deriving Repr, DecidableEq

/-- Relationship row (app.py:48-61). -/
structure Relationship where
  id : Nat
  source_ci_id : Nat
  target_ci_id : Nat
  relationship_type : String
deriving Repr, DecidableEq

/-- Storage state: the two tables in insertion order plus the next
autoincrement primary keys. -/
structure DB where
  cis : List CI
  rels : List Relationship
  nextCIId : Nat
  nextRelId : Nat
deriving Repr, DecidableEq

/-- Allowed relationship types (app.py:381). -/
def ALLOWED_RELATIONSHIP_TYPES : List String :=
  ["Depends on", "Hosts", "Connected to", "Runs on", "Provides"]

/-- JSON payload of POST /api/ci (app.py:386-404); none models an absent key. -/
structure CIInput where
  ci_name : Option String
  ci_type : Option String
  status : Option String
  owner : Option String
  ip_location : Option String
  description : Option String
deriving Repr, DecidableEq

/-- JSON payload of PUT /api/ci (app.py:426-454). The outer Option is key
presence; for the nullable columns the inner Option is the value, which the
code copies verbatim (data.get can give null). -/
structure CIUpdate where
  ci_name : Option String
  ci_type : Option String
  status : Option String
  owner : Option (Option String)
  ip_location : Option (Option String)
  description : Option (Option String)
deriving Repr, DecidableEq

/-- JSON payload of POST /api/relationship (app.py:514-527); none models an
absent key. The isinstance-int guard of app.py:529-530 is captured by the
Nat id type. -/
structure RelInput where
  source_ci_id : Option Nat
  target_ci_id : Option Nat
  relationship_type : Option String
deriving Repr, DecidableEq

/-- Query-string filters of GET /api/cis and GET /ui/cis; none models an
absent parameter. -/
structure CIFilter where
  ci_type : Option String
  status : Option String
  owner : Option String
  ci_name : Option String
deriving Repr, DecidableEq

/-- Primary-key lookup db.session.get(ConfigurationItem, id). -/
def findCI (db : DB) (id : Nat) : Option CI :=
  db.cis.find? (fun c => c.id == id)

/-- ConfigurationItem.query.filter_by(ci_name=name).first(). -/
def findCIByName (db : DB) (name : String) : Option CI :=
  db.cis.find? (fun c => c.ci_name == name)

/-- Primary-key lookup db.session.get(Relationship, id). -/
def findRel (db : DB) (id : Nat) : Option Relationship :=
  db.rels.find? (fun r => r.id == id)

/-- Python str.lower restricted to ASCII (sufficient for the direction
strings the code compares against). -/
def strLower (s : String) : String :=
  String.mk (s.data.map Char.toLower)

/-- Lexicographic order on character lists, the order SQLite ORDER BY uses
on ASCII text. -/
def charListLt : List Char → List Char → Bool
  | [], [] => false
  | [], _ :: _ => true
  | _ :: _, [] => false
  | a :: as, b :: bs => if a < b then true else if b < a then false else charListLt as bs

/-- String comparison for ORDER BY ci_name ASC. -/
def strLt (a b : String) : Bool :=
  charListLt a.data b.data

/-- Bool test that needle is a contiguous infix of hay. -/
def isInfixB [BEq α] (needle : List α) : List α → Bool
  | [] => needle.isEmpty
  | x :: xs => needle.isPrefixOf (x :: xs) || isInfixB needle xs

/-- SQL ILIKE with pattern sandwiched in percent signs: case-insensitive
substring match. -/
def icontains (hay needle : String) : Bool :=
  isInfixB (strLower needle).data (strLower hay).data

/-- Flask request.args.get truthiness: a filter is applied only when the
parameter is present and non-empty (the code guards each filter with a
plain `if value:`). -/
def filterArg (arg : Option String) (p : String → Bool) : Bool :=
  match arg with
  | none => true
  | some "" => true
  | some s => p s

/-- POST /api/ci (app.py:386-416). A required field is missing when its key
is absent or its value falsy, i.e. the empty string (app.py:392-395);
afterwards the row is inserted, and a duplicate ci_name trips the unique
constraint, which the code catches, rolls back and reports
(app.py:406-412). -/
def create_ci (db : DB) (now : Nat) (input : CIInput) : DB × Except CmdbError CI :=
  match input.ci_name, input.ci_type, input.status with
  | some n, some t, some s =>
    if n == "" || t == "" || s == "" then
      (db, .error .validationError)
    else
      if (findCIByName db n).isSome then
        (db, .error .duplicateNameError)
      else
        let ci : CI :=
          { id := db.nextCIId, ci_name := n, ci_type := t, status := s,
            owner := input.owner, ip_location := input.ip_location,
            description := input.description, last_updated := now }
        ({ db with cis := db.cis ++ [ci], nextCIId := db.nextCIId + 1 }, .ok ci)
  | _, _, _ => (db, .error .validationError)

/-- GET /api/ci (app.py:418-424). -/
def get_ci (db : DB) (id : Nat) : Except CmdbError CI :=
  match findCI db id with
  | some ci => .ok ci
  | none => .error .notFoundError

/-- Field application of update_ci (app.py:437-454): each present key
overwrites the column, absent keys leave it alone; last_updated is
refreshed by the onupdate hook at commit (app.py:25). -/
def applyCIUpdate (ci : CI) (u : CIUpdate) (now : Nat) : CI :=
  { ci with
    ci_name := u.ci_name.getD ci.ci_name,
    ci_type := u.ci_type.getD ci.ci_type,
    status := u.status.getD ci.status,
    owner := u.owner.getD ci.owner,
    ip_location := u.ip_location.getD ci.ip_location,
    description := u.description.getD ci.description,
    last_updated := now }

/-- Duplicate-name guard of update_ci (app.py:437-442): only when ci_name
is supplied and differs from the current name, any CI already having the
new name aborts the update. -/
def dupNameOnUpdate (db : DB) (ci : CI) (u : CIUpdate) : Bool :=
  match u.ci_name with
  | some n => n != ci.ci_name && (findCIByName db n).isSome
  | none => false

/-- PUT /api/ci (app.py:426-465). The duplicate-name branch returns before
any field of the row is assigned, so a DuplicateNameError leaves the state
untouched. -/
def update_ci (db : DB) (now : Nat) (id : Nat) (u : CIUpdate) :
    DB × Except CmdbError CI :=
  match findCI db id with
  | none => (db, .error .notFoundError)
  | some ci =>
    if dupNameOnUpdate db ci u then
      (db, .error .duplicateNameError)
    else
      let ci2 := applyCIUpdate ci u now
      ({ db with cis := db.cis.map (fun c => if c.id == id then ci2 else c) },
       .ok ci2)

/-- DELETE /api/ci (app.py:467-481). db.session.delete on the CI cascades
to every relationship having it as source or target (app.py:29-43). -/
def delete_ci (db : DB) (id : Nat) : DB × Except CmdbError Unit :=
  match findCI db id with
  | none => (db, .error .notFoundError)
  | some _ =>
    ({ db with
       cis := db.cis.filter (fun c => c.id != id),
       rels := db.rels.filter (fun r => r.source_ci_id != id && r.target_ci_id != id) },
     .ok ())

/-- Row predicate of GET /api/cis (app.py:483-510): exact match on ci_type
and status, exact case-sensitive match on owner (the code comments that
ilike would be needed for case-insensitivity), ILIKE substring on ci_name.
A NULL owner never satisfies an owner filter (SQL three-valued logic). -/
def apiCIMatch (f : CIFilter) (c : CI) : Bool :=
  filterArg f.ci_type (fun t => c.ci_type == t) &&
  filterArg f.status (fun s => c.status == s) &&
  filterArg f.owner (fun o =>
    match c.owner with
    | some ow => ow == o
    | none => false) &&
  filterArg f.ci_name (fun n => icontains c.ci_name n)

/-- GET /api/cis (app.py:483-510): filter only; the query has no order_by,
so rows come back in table (insertion) order. -/
def get_all_cis (db : DB) (f : CIFilter) : List CI :=
  db.cis.filter (apiCIMatch f)

/-- Insertion step of the name sort. -/
def insertByName (c : CI) : List CI → List CI
  | [] => [c]
  | x :: xs => if strLt x.ci_name c.ci_name then x :: insertByName c xs else c :: x :: xs

/-- ORDER BY ci_name ASC as an insertion sort. -/
def sortByName : List CI → List CI
  | [] => []
  | x :: xs => insertByName x (sortByName xs)

/-- Row predicate of GET /ui/cis (app.py:129-156): ILIKE substring on
ci_name and owner, exact match on ci_type and status. -/
def uiCIMatch (f : CIFilter) (c : CI) : Bool :=
  filterArg f.ci_name (fun n => icontains c.ci_name n) &&
  filterArg f.ci_type (fun t => c.ci_type == t) &&
  filterArg f.status (fun s => c.status == s) &&
  filterArg f.owner (fun o =>
    match c.owner with
    | some ow => icontains ow o
    | none => false)

/-- GET /ui/cis (app.py:129-156): filter, then order_by(ci_name). -/
def list_cis_ui (db : DB) (f : CIFilter) : List CI :=
  sortByName (db.cis.filter (uiCIMatch f))

/-- Transcription of the list(filter) contract of spec section 4.1, kept
separate from the code embeddings so the two can be compared: exact match
on type and status, case-insensitive substring match on name and owner,
unfiltered predicates are no-ops, ordering by name ascending. -/
def listPerSpec (db : DB) (f : CIFilter) : List CI :=
  sortByName (db.cis.filter (fun c =>
    filterArg f.ci_type (fun t => c.ci_type == t) &&
    filterArg f.status (fun s => c.status == s) &&
    filterArg f.ci_name (fun n => icontains c.ci_name n) &&
    filterArg f.owner (fun o =>
      match c.owner with
      | some ow => icontains ow o
      | none => false)))

/-- POST /api/relationship (app.py:514-580). Checks, in source order:
required keys present (0 is allowed for ids), source different from
target, type in the allowed list, source CI exists, target CI exists;
then inserts. -/
def create_relationship (db : DB) (input : RelInput) :
    DB × Except CmdbError Relationship :=
  match input.source_ci_id, input.target_ci_id, input.relationship_type with
  | some s, some t, some ty =>
    if s == t then
      (db, .error .validationError)
    else if !(ALLOWED_RELATIONSHIP_TYPES.contains ty) then
      (db, .error .validationError)
    else if (findCI db s).isNone then
      (db, .error .notFoundError)
    else if (findCI db t).isNone then
      (db, .error .notFoundError)
    else
      let rel : Relationship :=
        { id := db.nextRelId, source_ci_id := s, target_ci_id := t,
          relationship_type := ty }
      ({ db with rels := db.rels ++ [rel], nextRelId := db.nextRelId + 1 }, .ok rel)
  | _, _, _ => (db, .error .validationError)

/-- GET /api/relationship (app.py:583-597). -/
def get_relationship (db : DB) (id : Nat) : Except CmdbError Relationship :=
  match findRel db id with
  | some rel => .ok rel
  | none => .error .notFoundError

/-- DELETE /api/relationship (app.py:600-613). -/
def delete_relationship (db : DB) (id : Nat) : DB × Except CmdbError Unit :=
  match findRel db id with
  | none => (db, .error .notFoundError)
  | some _ => ({ db with rels := db.rels.filter (fun r => r.id != id) }, .ok ())

/-- GET /api/ci/(id)/relationships (app.py:616-647). 404 when the CI does
not exist; the direction parameter defaults to "all" and is lowercased
before the comparison chain; an unrecognized lowered value is a 400. -/
def get_relationships_for_ci (db : DB) (ci_id : Nat) (direction : Option String) :
    Except CmdbError (List Relationship) :=
  match findCI db ci_id with
  | none => .error .notFoundError
  | some _ =>
    let d := strLower (direction.getD "all")
    if d == "source" then
      .ok (db.rels.filter (fun r => r.source_ci_id == ci_id))
    else if d == "target" then
      .ok (db.rels.filter (fun r => r.target_ci_id == ci_id))
    else if d == "all" then
      .ok (db.rels.filter (fun r => r.source_ci_id == ci_id || r.target_ci_id == ci_id))
    else
      .error .validationError

/-- Mutating operations reachable through the API. now is the commit
timestamp of the operation. -/
inductive Op where
  | createCI (now : Nat) (input : CIInput)
  | updateCI (now : Nat) (id : Nat) (u : CIUpdate)
  | deleteCI (id : Nat)
  | createRel (input : RelInput)
  | deleteRel (id : Nat)

/-- State transition of one API call (errors leave the state unchanged
because every failing branch rolls back before returning). -/
def applyOp (db : DB) : Op → DB
  | .createCI now input => (create_ci db now input).1
  | .updateCI now id u => (update_ci db now id u).1
  | .deleteCI id => (delete_ci db id).1
  | .createRel input => (create_relationship db input).1
  | .deleteRel id => (delete_relationship db id).1

/-- Empty database as produced by flask init-db (app.py:657-663). -/
def initDB : DB :=
  { cis := [], rels := [], nextCIId := 1, nextRelId := 1 }

/-- States reachable from the empty database through API operations. -/
inductive Reachable : DB → Prop where
  | init : Reachable initDB
  | step (op : Op) {db : DB} : Reachable db → Reachable (applyOp db op)

/-- No two distinct CI rows carry the same name. -/
def NamesUnique (l : List CI) : Prop :=
  l.Pairwise (fun a b => a.ci_name ≠ b.ci_name)

/-- Well-formedness of a database state: primary keys are pairwise distinct
and below the autoincrement counters, and CI names are pairwise distinct. -/
def WfDB (db : DB) : Prop :=
  db.cis.Pairwise (fun a b => a.id ≠ b.id) ∧
  NamesUnique db.cis ∧
  (∀ c ∈ db.cis, c.id < db.nextCIId) ∧
  db.rels.Pairwise (fun a b => a.id ≠ b.id) ∧
  (∀ r ∈ db.rels, r.id < db.nextRelId)

instance (l : List CI) : Decidable (NamesUnique l) := by
  unfold NamesUnique; infer_instance

instance (db : DB) : Decidable (WfDB db) := by
  unfold WfDB NamesUnique; infer_instance

/-- Helper: a list whose members all have ids different from a given id is
unchanged by the row-replacement map of update_ci. -/
theorem map_update_id_eq {l : List CI} {id : Nat} {ci2 : CI}
    (h : ∀ c ∈ l, c.id ≠ id) :
    l.map (fun c => if c.id == id then ci2 else c) = l := by
  induction l with
  | nil => rfl
  | cons x xs ih =>
    have hx : x.id ≠ id := h x (List.mem_cons_self ..)
    have hxs := ih fun c hc => h c (List.mem_cons_of_mem _ hc)
    simp only [List.map_cons, if_neg (show ¬ (x.id == id) = true by simpa using hx), hxs]

/-- Helper: the element found by an id lookup is the only member with that
id when ids are pairwise distinct. -/
theorem mem_eq_of_find_id {l : List CI} {id : Nat} {X a : CI}
    (hids : l.Pairwise (fun a b => a.id ≠ b.id))
    (hX : l.find? (fun c => c.id == id) = some X)
    (ha : a ∈ l) (haid : a.id = id) : a = X := by
  have hXmem : X ∈ l := List.mem_of_find?_eq_some hX
  have hXid : X.id = id := by simpa using List.find?_some hX
  by_contra hne
  have hsymm : Symmetric (fun a b : CI => a.id ≠ b.id) := fun x y h e => h e.symm
  exact (List.Pairwise.forall hsymm hids ha hXmem hne) (haid.trans hXid.symm)

/-- Helper: names stay pairwise distinct when one row (selected by id) is
replaced by a row whose name collides with no other row. -/
theorem namesUnique_map_update {l : List CI} {id : Nat} {ci2 : CI}
    (hids : l.Pairwise (fun a b => a.id ≠ b.id))
    (hnames : NamesUnique l)
    (hfresh : ∀ c ∈ l, c.id ≠ id → c.ci_name ≠ ci2.ci_name) :
    NamesUnique (l.map (fun c => if c.id == id then ci2 else c)) := by
  refine List.pairwise_map.mpr ?_
  refine List.Pairwise.imp_of_mem ?_ (hids.and hnames)
  intro a b ha hb hab
  by_cases haid : a.id = id
  · by_cases hbid : b.id = id
    · exact absurd (haid.trans hbid.symm) hab.1
    · simp only [if_pos (show (a.id == id) = true by simpa using haid),
        if_neg (show ¬ (b.id == id) = true by simpa using hbid)]
      exact fun h => hfresh b hb hbid h.symm
  · by_cases hbid : b.id = id
    · simp only [if_neg (show ¬ (a.id == id) = true by simpa using haid),
        if_pos (show (b.id == id) = true by simpa using hbid)]
      exact hfresh a ha haid
    · simp only [if_neg (show ¬ (a.id == id) = true by simpa using haid),
        if_neg (show ¬ (b.id == id) = true by simpa using hbid)]
      exact hab.2

/-- Helper: appending an element related to every member keeps a list
pairwise. -/
theorem pairwise_append_single {R : α → α → Prop} {l : List α} {a : α}
    (h : l.Pairwise R) (ha : ∀ x ∈ l, R x a) : (l ++ [a]).Pairwise R := by
  rw [List.pairwise_append]
  exact ⟨h, List.pairwise_singleton .., by simpa using ha⟩

/-- create_ci preserves well-formedness: errors leave the state unchanged,
and a successful insert uses a fresh id and a name no row already has. -/
theorem wf_create_ci {db : DB} (h : WfDB db) (now : Nat) (input : CIInput) :
    WfDB (create_ci db now input).1 := by
  obtain ⟨hids, hnames, hlt, hrids, hrlt⟩ := h
  obtain ⟨n, t, s, ow, loc, desc⟩ := input
  cases n with
  | none => exact ⟨hids, hnames, hlt, hrids, hrlt⟩
  | some n =>
  cases t with
  | none => exact ⟨hids, hnames, hlt, hrids, hrlt⟩
  | some t =>
  cases s with
  | none => exact ⟨hids, hnames, hlt, hrids, hrlt⟩
  | some s =>
  by_cases hempty : (n == "" || t == "" || s == "") = true
  · simp only [create_ci, if_pos hempty]
    exact ⟨hids, hnames, hlt, hrids, hrlt⟩
  · by_cases hdup : (findCIByName db n).isSome = true
    · simp only [create_ci, if_neg hempty, if_pos hdup]
      exact ⟨hids, hnames, hlt, hrids, hrlt⟩
    · simp only [create_ci, if_neg hempty, if_neg hdup]
      refine ⟨?_, ?_, ?_, hrids, hrlt⟩
      · exact pairwise_append_single hids fun x hx => Nat.ne_of_lt (hlt x hx)
      · refine pairwise_append_single hnames fun x hx => ?_
        have hnone : findCIByName db n = none := Option.not_isSome_iff_eq_none.mp hdup
        have := List.find?_eq_none.mp hnone x hx
        simpa using this
      · intro c hc
        rcases List.mem_append.mp hc with h1 | h2
        · exact Nat.lt_trans (hlt c h1) (Nat.lt_succ_self _)
        · rw [List.mem_singleton.mp h2]
          exact Nat.lt_succ_self _

/-- update_ci preserves well-formedness: the row-replacement map keeps all
ids, and the duplicate-name guard makes a changed name fresh. -/
theorem wf_update_ci {db : DB} (h : WfDB db) (now id : Nat) (u : CIUpdate) :
    WfDB (update_ci db now id u).1 := by
  obtain ⟨hids, hnames, hlt, hrids, hrlt⟩ := h
  unfold update_ci
  cases hf : findCI db id with
  | none => exact ⟨hids, hnames, hlt, hrids, hrlt⟩
  | some X =>
    by_cases hdup : dupNameOnUpdate db X u = true
    · simp only [if_pos hdup]
      exact ⟨hids, hnames, hlt, hrids, hrlt⟩
    · simp only [if_neg hdup]
      have hXid : X.id = id := by simpa using List.find?_some hf
      have hXmem : X ∈ db.cis := List.mem_of_find?_eq_some hf
      have hci2id : (applyCIUpdate X u now).id = X.id := rfl
      have hfid : ∀ c : CI,
          ((fun c => if c.id == id then applyCIUpdate X u now else c) c).id = c.id := by
        intro c
        by_cases hc : c.id = id
        · simp [hc, hci2id, hXid]
        · simp [hc]
      refine ⟨?_, ?_, ?_, hrids, hrlt⟩
      · refine List.pairwise_map.mpr (hids.imp ?_)
        intro a b hab
        rw [hfid a, hfid b]
        exact hab
      · refine namesUnique_map_update hids hnames ?_
        have hsymm : Symmetric (fun a b : CI => a.ci_name ≠ b.ci_name) :=
          fun x y h e => h e.symm
        intro c hc hcid
        have hcX : c ≠ X := fun e => hcid (by rw [e, hXid])
        have hcname : c.ci_name ≠ X.ci_name :=
          List.Pairwise.forall hsymm hnames hc hXmem hcX
        cases hu : u.ci_name with
        | none => simpa [applyCIUpdate, hu] using hcname
        | some n =>
          by_cases hnX : n = X.ci_name
          · simpa [applyCIUpdate, hu, hnX] using hcname
          · have hnone : findCIByName db n = none := by
              unfold dupNameOnUpdate at hdup
              rw [hu] at hdup
              simp only [Bool.and_eq_true, bne_iff_ne, ne_eq, not_and] at hdup
              exact Option.not_isSome_iff_eq_none.mp (by simpa using hdup hnX)
            have := List.find?_eq_none.mp hnone c hc
            simp only [applyCIUpdate, hu, Option.getD_some]
            simpa using this
      · intro c hc
        rcases List.mem_map.mp hc with ⟨a, ha, rfl⟩
        rw [hfid a]
        exact hlt a ha

/-- delete_ci preserves well-formedness: both tables only shrink. -/
theorem wf_delete_ci {db : DB} (h : WfDB db) (id : Nat) :
    WfDB (delete_ci db id).1 := by
  obtain ⟨hids, hnames, hlt, hrids, hrlt⟩ := h
  unfold delete_ci
  cases hf : findCI db id with
  | none => exact ⟨hids, hnames, hlt, hrids, hrlt⟩
  | some X =>
    exact ⟨hids.sublist (List.filter_sublist _), hnames.sublist (List.filter_sublist _),
      fun c hc => hlt c (List.mem_of_mem_filter hc),
      hrids.sublist (List.filter_sublist _),
      fun r hr => hrlt r (List.mem_of_mem_filter hr)⟩

/-- create_relationship preserves well-formedness: a successful insert uses
a fresh relationship id. -/
theorem wf_create_relationship {db : DB} (h : WfDB db) (input : RelInput) :
    WfDB (create_relationship db input).1 := by
  obtain ⟨hids, hnames, hlt, hrids, hrlt⟩ := h
  obtain ⟨s, t, ty⟩ := input
  cases s with
  | none => exact ⟨hids, hnames, hlt, hrids, hrlt⟩
  | some s =>
  cases t with
  | none => exact ⟨hids, hnames, hlt, hrids, hrlt⟩
  | some t =>
  cases ty with
  | none => exact ⟨hids, hnames, hlt, hrids, hrlt⟩
  | some ty =>
  by_cases hst : (s == t) = true
  · simp only [create_relationship, if_pos hst]
    exact ⟨hids, hnames, hlt, hrids, hrlt⟩
  · by_cases hty : (!(ALLOWED_RELATIONSHIP_TYPES.contains ty)) = true
    · simp only [create_relationship, if_neg hst, if_pos hty]
      exact ⟨hids, hnames, hlt, hrids, hrlt⟩
    · by_cases hsrc : (findCI db s).isNone = true
      · simp only [create_relationship, if_neg hst, if_neg hty, if_pos hsrc]
        exact ⟨hids, hnames, hlt, hrids, hrlt⟩
      · by_cases htgt : (findCI db t).isNone = true
        · simp only [create_relationship, if_neg hst, if_neg hty, if_neg hsrc, if_pos htgt]
          exact ⟨hids, hnames, hlt, hrids, hrlt⟩
        · simp only [create_relationship, if_neg hst, if_neg hty, if_neg hsrc, if_neg htgt]
          refine ⟨hids, hnames, hlt, ?_, ?_⟩
          · exact pairwise_append_single hrids fun x hx => Nat.ne_of_lt (hrlt x hx)
          · intro r hr
            rcases List.mem_append.mp hr with h1 | h2
            · exact Nat.lt_trans (hrlt r h1) (Nat.lt_succ_self _)
            · rw [List.mem_singleton.mp h2]
              exact Nat.lt_succ_self _

/-- delete_relationship preserves well-formedness. -/
theorem wf_delete_relationship {db : DB} (h : WfDB db) (id : Nat) :
    WfDB (delete_relationship db id).1 := by
  obtain ⟨hids, hnames, hlt, hrids, hrlt⟩ := h
  unfold delete_relationship
  cases hf : findRel db id with
  | none => exact ⟨hids, hnames, hlt, hrids, hrlt⟩
  | some X =>
    exact ⟨hids, hnames, hlt,
      hrids.sublist (List.filter_sublist _),
      fun r hr => hrlt r (List.mem_of_mem_filter hr)⟩

/-- Every single API operation preserves well-formedness. -/
theorem wf_applyOp {db : DB} (h : WfDB db) (op : Op) : WfDB (applyOp db op) := by
  cases op with
  | createCI now input => exact wf_create_ci h now input
  | updateCI now id u => exact wf_update_ci h now id u
  | deleteCI id => exact wf_delete_ci h id
  | createRel input => exact wf_create_relationship h input
  | deleteRel id => exact wf_delete_relationship h id

/-- The empty database is well-formed. -/
theorem wf_initDB : WfDB initDB := by
  refine ⟨List.Pairwise.nil, List.Pairwise.nil, ?_, List.Pairwise.nil, ?_⟩ <;> simp [initDB]

/-- Every reachable state is well-formed; in particular no two rows share
an id and no two CIs share a name. -/
theorem wf_reachable {db : DB} (h : Reachable db) : WfDB db := by
  induction h with
  | init => exact wf_initDB
  | step op _ ih => exact wf_applyOp ih op

/-- Example CI rows used by the concrete witnesses below. -/
def ciA : CI :=
  { id := 1, ci_name := "AppServer-Prod-01", ci_type := "Server",
    status := "Active", owner := some "AppTeam", ip_location := some "10.0.1.11",
    description := none, last_updated := 0 }

/-- Second example CI row. -/
def ciB : CI :=
  { id := 2, ci_name := "CustomerDB-Prod-01", ci_type := "Database",
    status := "Active", owner := some "DBTeam", ip_location := some "10.0.2.5",
    description := none, last_updated := 0 }

/-- Third example CI row. -/
def ciC : CI :=
  { id := 3, ci_name := "BillingApp-Prod", ci_type := "Application",
    status := "Active", owner := some "FinanceAppTeam", ip_location := none,
    description := none, last_updated := 0 }

/-- Example edge from ciA to ciB. -/
def relAB : Relationship :=
  { id := 1, source_ci_id := 1, target_ci_id := 2, relationship_type := "Depends on" }

/-- Example edge from ciB to ciC. -/
def relBC : Relationship :=
  { id := 2, source_ci_id := 2, target_ci_id := 3, relationship_type := "Hosts" }

/-- Example database state holding the three CIs and two edges. -/
def dbExample : DB :=
  { cis := [ciA, ciB, ciC], rels := [relAB, relBC], nextCIId := 4, nextRelId := 3 }

/-- C1: deleting an existing CI succeeds, and afterwards the CI lookup and
the lookup of every relationship that had it as source or target fail with
NotFoundError, while every relationship not touching it survives; deleting
a missing id fails with NotFoundError and changes nothing. -/
theorem c1_delete_cascade (db : DB) (id : Nat)
    (hrids : db.rels.Pairwise (fun a b => a.id ≠ b.id)) :
    ((findCI db id).isSome →
      (delete_ci db id).2 = .ok () ∧
      get_ci (delete_ci db id).1 id = .error .notFoundError ∧
      (∀ rel ∈ db.rels, (rel.source_ci_id = id ∨ rel.target_ci_id = id) →
        get_relationship (delete_ci db id).1 rel.id = .error .notFoundError) ∧
      (∀ rel ∈ db.rels, rel.source_ci_id ≠ id → rel.target_ci_id ≠ id →
        rel ∈ (delete_ci db id).1.rels)) ∧
    (findCI db id = none → delete_ci db id = (db, .error .notFoundError)) := by
  constructor
  · intro hsome
    obtain ⟨X, hX⟩ := Option.isSome_iff_exists.mp hsome
    have hd : delete_ci db id =
        ({ db with
           cis := db.cis.filter (fun c => c.id != id),
           rels := db.rels.filter
             (fun r => r.source_ci_id != id && r.target_ci_id != id) },
         .ok ()) := by
      unfold delete_ci
      rw [hX]
    simp only [hd]
    refine ⟨trivial, ?_, ?_, ?_⟩
    · unfold get_ci findCI
      rw [List.find?_eq_none.mpr ?_]
      intro a ha hpa
      have h2 := (List.mem_filter.mp ha).2
      rw [show a.id = id by simpa using hpa] at h2
      simp at h2
    · intro rel hrel htouch
      unfold get_relationship findRel
      rw [List.find?_eq_none.mpr ?_]
      intro a ha hpa
      obtain ⟨hamem, hpred⟩ := List.mem_filter.mp ha
      have haid : a.id = rel.id := by simpa using hpa
      have hsymm : Symmetric (fun a b : Relationship => a.id ≠ b.id) :=
        fun x y h e => h e.symm
      have haeq : a = rel := by
        by_contra hne
        exact List.Pairwise.forall hsymm hrids hamem hrel hne haid
      rw [haeq] at hpred
      rcases htouch with h1 | h1 <;> rw [h1] at hpred <;> simp at hpred
    · intro rel hrel h1 h2
      exact List.mem_filter.mpr ⟨hrel, by simp [h1, h2]⟩
  · intro hnone
    unfold delete_ci
    rw [hnone]

/-- Concrete run of C1: deleting CI 1 of the example database removes the
CI and the edge it sourced, keeps the unrelated edge, and both removed
rows then answer NotFoundError. -/
theorem c1_delete_cascade_witness :
    (delete_ci dbExample 1).2 = .ok () ∧
    get_ci (delete_ci dbExample 1).1 1 = .error .notFoundError ∧
    get_relationship (delete_ci dbExample 1).1 1 = .error .notFoundError ∧
    relBC ∈ (delete_ci dbExample 1).1.rels := by
  have h := (c1_delete_cascade dbExample 1 (by decide)).1 (by decide)
  exact ⟨h.1, h.2.1, h.2.2.1 relAB (by decide) (Or.inl (by decide)),
    h.2.2.2 relBC (by decide) (by decide) (by decide)⟩

/-- C2: in every reachable state no two distinct CIs share a name, and a
create whose (otherwise valid) input reuses a name some CI already holds
fails with DuplicateNameError and leaves the state unchanged. -/
theorem c2_name_uniqueness_invariant {db : DB} (h : Reachable db) :
    NamesUnique db.cis ∧
    ∀ now (input : CIInput) (n t s : String),
      input.ci_name = some n → input.ci_type = some t → input.status = some s →
      n ≠ "" → t ≠ "" → s ≠ "" →
      (∃ c ∈ db.cis, c.ci_name = n) →
      create_ci db now input = (db, .error .duplicateNameError) := by
  refine ⟨(wf_reachable h).2.1, ?_⟩
  rintro now input n t s hn ht hs hne hte hse ⟨c, hc, hcn⟩
  obtain ⟨n0, t0, s0, ow, loc, desc⟩ := input
  simp only at hn ht hs
  subst hn; subst ht; subst hs
  have hempty : (n == "" || t == "" || s == "") = false := by
    simp [hne, hte, hse]
  have hdup : (findCIByName db n).isSome = true := by
    unfold findCIByName
    exact List.find?_isSome.mpr ⟨c, hc, by simp [hcn]⟩
  simp [create_ci, hempty, hdup]

/-- Concrete run of C2: after a reachable state containing the CI named
WebServer-Prod-01 has been built, creating that name again fails with
DuplicateNameError and the state is untouched. -/
theorem c2_name_uniqueness_invariant_witness :
    create_ci
      { cis := [{ id := 1, ci_name := "WebServer-Prod-01", ci_type := "Server",
                  status := "Active", owner := none, ip_location := none,
                  description := none, last_updated := 5 }],
        rels := [], nextCIId := 2, nextRelId := 1 } 6
      { ci_name := some "WebServer-Prod-01", ci_type := some "Server",
        status := some "Active", owner := none, ip_location := none,
        description := none }
    = ({ cis := [{ id := 1, ci_name := "WebServer-Prod-01", ci_type := "Server",
                   status := "Active", owner := none, ip_location := none,
                   description := none, last_updated := 5 }],
         rels := [], nextCIId := 2, nextRelId := 1 },
       .error .duplicateNameError) := by
  have hr : Reachable
      { cis := [{ id := 1, ci_name := "WebServer-Prod-01", ci_type := "Server",
                  status := "Active", owner := none, ip_location := none,
                  description := none, last_updated := 5 }],
        rels := [], nextCIId := 2, nextRelId := 1 } :=
    Reachable.step (.createCI 5
      { ci_name := some "WebServer-Prod-01", ci_type := some "Server",
        status := some "Active", owner := none, ip_location := none,
        description := none }) Reachable.init
  exact (c2_name_uniqueness_invariant hr).2 6 _ "WebServer-Prod-01" "Server" "Active"
    rfl rfl rfl (by decide) (by decide) (by decide)
    ⟨{ id := 1, ci_name := "WebServer-Prod-01", ci_type := "Server",
       status := "Active", owner := none, ip_location := none,
       description := none, last_updated := 5 }, by decide, rfl⟩

/-- C3: a relationship create whose source and target ids coincide, or
whose type is outside the allowed set, fails with ValidationError and
leaves the state unchanged, for any ids whatsoever. -/
theorem c3_relationship_validation (db : DB) (s t : Nat) (ty : String)
    (h : s = t ∨ ALLOWED_RELATIONSHIP_TYPES.contains ty = false) :
    create_relationship db
      { source_ci_id := some s, target_ci_id := some t, relationship_type := some ty }
    = (db, .error .validationError) := by
  rcases h with h | h
  · subst h
    simp [create_relationship]
  · have h2 : ty ∉ ALLOWED_RELATIONSHIP_TYPES := by simpa using h
    by_cases hst : (s == t) = true
    · simp [create_relationship, hst]
    · simp [create_relationship, hst, h2]

/-- Concrete run of C3: the disallowed type Hacks into is rejected with
ValidationError between two existing CIs. -/
theorem c3_relationship_validation_witness :
    create_relationship dbExample
      { source_ci_id := some 1, target_ci_id := some 2,
        relationship_type := some "Hacks into" }
    = (dbExample, .error .validationError) :=
  c3_relationship_validation dbExample 1 2 "Hacks into" (Or.inr (by decide))

/-- C6: updating an existing CI to the name of a different existing CI
fails with DuplicateNameError, the state is unchanged, and reading the CI
back still gives the original record with every field intact. -/
theorem c6_update_duplicate_name_atomic (db : DB) (now id : Nat) (u : CIUpdate)
    (X Y : CI) (n : String)
    (hX : findCI db id = some X)
    (hnames : NamesUnique db.cis)
    (hun : u.ci_name = some n)
    (hY : Y ∈ db.cis) (hYX : Y ≠ X) (hYn : Y.ci_name = n) :
    update_ci db now id u = (db, .error .duplicateNameError) ∧
    get_ci db id = .ok X := by
  have hXmem : X ∈ db.cis := List.mem_of_find?_eq_some hX
  have hsymm : Symmetric (fun a b : CI => a.ci_name ≠ b.ci_name) :=
    fun x y h e => h e.symm
  have hnX : n ≠ X.ci_name := by
    rw [← hYn]
    exact List.Pairwise.forall hsymm hnames hY hXmem hYX
  have hdup : dupNameOnUpdate db X u = true := by
    unfold dupNameOnUpdate
    rw [hun]
    rw [Bool.and_eq_true]
    refine ⟨by simpa using hnX, ?_⟩
    unfold findCIByName
    exact List.find?_isSome.mpr ⟨Y, hY, by simp [hYn]⟩
  constructor
  · unfold update_ci
    rw [hX]
    simp [hdup]
  · unfold get_ci
    rw [hX]

/-- Concrete run of C6: renaming CI 1 to the name CI 2 already holds fails
with DuplicateNameError, and CI 1 reads back unchanged. -/
theorem c6_update_duplicate_name_atomic_witness :
    update_ci dbExample 9 1
      { ci_name := some "CustomerDB-Prod-01", ci_type := none, status := none,
        owner := none, ip_location := none, description := none }
      = (dbExample, .error .duplicateNameError) ∧
    get_ci dbExample 1 = .ok ciA :=
  c6_update_duplicate_name_atomic dbExample 9 1 _ ciA ciB "CustomerDB-Prod-01"
    (by decide) (by unfold NamesUnique; decide) rfl (by decide) (by decide) (by decide)

/-- C7: a relationship create with distinct ids and an allowed type whose
source or target CI does not exist fails with NotFoundError and leaves the
state unchanged. -/
theorem c7_relationship_missing_endpoint (db : DB) (s t : Nat) (ty : String)
    (hst : s ≠ t) (hty : ALLOWED_RELATIONSHIP_TYPES.contains ty = true)
    (h : findCI db s = none ∨ findCI db t = none) :
    create_relationship db
      { source_ci_id := some s, target_ci_id := some t, relationship_type := some ty }
    = (db, .error .notFoundError) := by
  have hty2 : ty ∈ ALLOWED_RELATIONSHIP_TYPES := by simpa using hty
  rcases h with h | h
  · simp [create_relationship, hst, hty2, h]
  · by_cases hsrc : (findCI db s).isNone = true
    · simp [create_relationship, hst, hty2, hsrc]
    · simp [create_relationship, hst, hty2, hsrc, h]

/-- Concrete run of C7: creating an edge to the nonexistent CI 99 fails
with NotFoundError. -/
theorem c7_relationship_missing_endpoint_witness :
    create_relationship dbExample
      { source_ci_id := some 1, target_ci_id := some 99,
        relationship_type := some "Depends on" }
    = (dbExample, .error .notFoundError) :=
  c7_relationship_missing_endpoint dbExample 1 99 "Depends on"
    (by decide) (by decide) (Or.inr (by decide))

/-- C9: the self-reference check runs before the endpoint-existence check,
so a self-loop with an allowed type fails with ValidationError whether or
not a CI with that id exists, never with NotFoundError. -/
theorem c9_self_reference_precedes_existence (db : DB) (x : Nat) (ty : String)
    (_hty : ALLOWED_RELATIONSHIP_TYPES.contains ty = true) :
    create_relationship db
      { source_ci_id := some x, target_ci_id := some x, relationship_type := some ty }
    = (db, .error .validationError) := by
  simp [create_relationship]

/-- Concrete run of C9: a self-loop on the nonexistent id 77 still fails
with ValidationError, not NotFoundError. -/
theorem c9_self_reference_precedes_existence_witness :
    create_relationship dbExample
      { source_ci_id := some 77, target_ci_id := some 77,
        relationship_type := some "Hosts" }
    = (dbExample, .error .validationError) :=
  c9_self_reference_precedes_existence dbExample 77 "Hosts" (by decide)

/-- C8: a create with a fresh non-empty name and non-empty type and status
succeeds, and reading the assigned id back returns exactly the input
fields plus the fresh id and the creation timestamp. -/
theorem c8_create_get_roundtrip (db : DB) (now : Nat) (input : CIInput)
    (n t s : String)
    (hn : input.ci_name = some n) (ht : input.ci_type = some t)
    (hs : input.status = some s)
    (hne : n ≠ "") (hte : t ≠ "") (hse : s ≠ "")
    (hdup : findCIByName db n = none)
    (hfresh : ∀ c ∈ db.cis, c.id < db.nextCIId) :
    (create_ci db now input).2 =
      .ok { id := db.nextCIId, ci_name := n, ci_type := t, status := s,
            owner := input.owner, ip_location := input.ip_location,
            description := input.description, last_updated := now } ∧
    get_ci (create_ci db now input).1 db.nextCIId =
      .ok { id := db.nextCIId, ci_name := n, ci_type := t, status := s,
            owner := input.owner, ip_location := input.ip_location,
            description := input.description, last_updated := now } := by
  obtain ⟨n0, t0, s0, ow, loc, desc⟩ := input
  simp only at hn ht hs
  subst hn; subst ht; subst hs
  have hempty : (n == "" || t == "" || s == "") = false := by
    simp [hne, hte, hse]
  have hdup2 : (findCIByName db n).isSome = false := by
    simp [hdup]
  have hc : create_ci db now
      { ci_name := some n, ci_type := some t, status := some s,
        owner := ow, ip_location := loc, description := desc } =
      ({ db with
         cis := db.cis ++
           [{ id := db.nextCIId, ci_name := n, ci_type := t,
              status := s, owner := ow, ip_location := loc, description := desc,
              last_updated := now }],
         nextCIId := db.nextCIId + 1 },
       .ok { id := db.nextCIId, ci_name := n, ci_type := t, status := s,
             owner := ow, ip_location := loc, description := desc,
             last_updated := now }) := by
    simp [create_ci, hempty, hdup2]
  simp only [hc]
  refine ⟨trivial, ?_⟩
  unfold get_ci findCI
  rw [List.find?_append, List.find?_eq_none.mpr ?_]
  · simp
  · intro a ha hpa
    exact Nat.ne_of_lt (hfresh a ha) (by simpa using hpa)

/-- Concrete run of C8: creating MainWebsite-Prod in the example database
succeeds with id 4 and get returns the full input plus id and timestamp. -/
theorem c8_create_get_roundtrip_witness :
    (create_ci dbExample 7
      { ci_name := some "MainWebsite-Prod", ci_type := some "Application",
        status := some "Active", owner := some "WebTeam", ip_location := none,
        description := some "Public facing website" }).2 =
      .ok { id := 4, ci_name := "MainWebsite-Prod", ci_type := "Application",
            status := "Active", owner := some "WebTeam", ip_location := none,
            description := some "Public facing website", last_updated := 7 } ∧
    get_ci (create_ci dbExample 7
      { ci_name := some "MainWebsite-Prod", ci_type := some "Application",
        status := some "Active", owner := some "WebTeam", ip_location := none,
        description := some "Public facing website" }).1 4 =
      .ok { id := 4, ci_name := "MainWebsite-Prod", ci_type := "Application",
            status := "Active", owner := some "WebTeam", ip_location := none,
            description := some "Public facing website", last_updated := 7 } :=
  c8_create_get_roundtrip dbExample 7
    { ci_name := some "MainWebsite-Prod", ci_type := some "Application",
      status := some "Active", owner := some "WebTeam", ip_location := none,
      description := some "Public facing website" }
    "MainWebsite-Prod" "Application" "Active" rfl rfl rfl
    (by decide) (by decide) (by decide) (by decide) (by decide)

/-- Two Database CIs stored out of name order, for exercising list
ordering. -/
def dbTwoDatabases : DB :=
  { cis :=
      [{ id := 1, ci_name := "CustomerDB-Prod-01", ci_type := "Database",
         status := "Active", owner := some "DBTeam", ip_location := none,
         description := none, last_updated := 0 },
       { id := 2, ci_name := "AnalyticsDB-Prod-01", ci_type := "Database",
         status := "Active", owner := some "DataTeam", ip_location := none,
         description := none, last_updated := 0 }],
    rels := [], nextCIId := 3, nextRelId := 1 }

/-- Filter selecting ci_type Database and nothing else. -/
def filterDatabase : CIFilter :=
  { ci_type := some "Database", status := none, owner := none, ci_name := none }

/-- C4 as stated is false for the API list: with two Database CIs stored
out of name order, GET /api/cis filtered by ci_type=Database returns them
in table order (CustomerDB before AnalyticsDB), not ordered by name
ascending as the spec's list contract requires. -/
theorem c4_list_counterexample :
    get_all_cis dbTwoDatabases filterDatabase ≠
      listPerSpec dbTwoDatabases filterDatabase := by decide

/-- C4 amended: the UI list (GET /ui/cis) satisfies the spec's list
contract exactly; the API list (GET /api/cis) filters with the same type,
status and name predicates but matches owner by exact case-sensitive
equality and applies no ordering: it returns exactly the rows its
predicate accepts, in stored table order (a sublist of the table). -/
theorem c4_amended_list_semantics (db : DB) (f : CIFilter) :
    list_cis_ui db f = listPerSpec db f ∧
    (get_all_cis db f).Sublist db.cis ∧
    (∀ c, c ∈ get_all_cis db f ↔ c ∈ db.cis ∧ apiCIMatch f c = true) := by
  refine ⟨?_, List.filter_sublist _, fun c => List.mem_filter⟩
  unfold list_cis_ui listPerSpec
  congr 1
  apply List.filter_congr
  intro c _
  unfold uiCIMatch
  cases hA : filterArg f.ci_name (fun n => icontains c.ci_name n) <;>
    cases hB : filterArg f.ci_type (fun t => c.ci_type == t) <;>
      cases hC : filterArg f.status (fun s => c.status == s) <;>
        simp [hA, hB, hC]

/-- Helper: evaluation of the relationship-listing route at an existing CI
as one if-chain over the lowercased direction. -/
theorem grfc_eval {db : DB} {c : Nat} {X : CI} (hX : findCI db c = some X)
    (d : String) :
    get_relationships_for_ci db c (some d) =
      (if strLower d == "source" then
        .ok (db.rels.filter (fun r => r.source_ci_id == c))
      else if strLower d == "target" then
        .ok (db.rels.filter (fun r => r.target_ci_id == c))
      else if strLower d == "all" then
        .ok (db.rels.filter (fun r => r.source_ci_id == c || r.target_ci_id == c))
      else .error .validationError) := by
  unfold get_relationships_for_ci
  rw [hX]
  rfl

/-- C5 as stated is false: the direction value SOURCE is outside the
literal set of source, target and all, yet the call on an existing CI
succeeds (the code lowercases the value first) instead of failing with
ValidationError. -/
theorem c5_direction_counterexample :
    ("SOURCE" ∉ ["source", "target", "all"]) ∧
    (findCI dbExample 1).isSome = true ∧
    get_relationships_for_ci dbExample 1 (some "SOURCE") ≠
      .error .validationError := by
  refine ⟨by decide, by decide, by decide⟩

/-- C5 amended: for every existing CI id, direction source returns exactly
the edges it sources, target exactly the edges it targets, and all their
union (each edge at most once, the result being a sublist of the edge
table); the direction string is lowercased first and any value whose
lowercase form is outside the set fails with ValidationError; and in a
state with no edge targeting C, after creating an edge from A to C of an
allowed type, the target query at C returns exactly that one edge, whose
source is A. -/
theorem c5_amended_list_by_endpoint (db : DB) (c : Nat)
    (hc : (findCI db c).isSome) :
    get_relationships_for_ci db c (some "source")
      = .ok (db.rels.filter (fun r => r.source_ci_id == c)) ∧
    get_relationships_for_ci db c (some "target")
      = .ok (db.rels.filter (fun r => r.target_ci_id == c)) ∧
    get_relationships_for_ci db c (some "all")
      = .ok (db.rels.filter (fun r => r.source_ci_id == c || r.target_ci_id == c)) ∧
    (∀ r, r ∈ db.rels.filter (fun r => r.source_ci_id == c || r.target_ci_id == c) ↔
      (r ∈ db.rels.filter (fun r => r.source_ci_id == c) ∨
       r ∈ db.rels.filter (fun r => r.target_ci_id == c))) ∧
    (db.rels.filter (fun r => r.source_ci_id == c || r.target_ci_id == c)).Sublist
      db.rels ∧
    (∀ s, strLower s ≠ "source" → strLower s ≠ "target" → strLower s ≠ "all" →
      get_relationships_for_ci db c (some s) = .error .validationError) ∧
    (∀ a ty, (findCI db a).isSome → ALLOWED_RELATIONSHIP_TYPES.contains ty = true →
      a ≠ c →
      db.rels.filter (fun r => r.target_ci_id == c) = [] →
      ∃ rel,
        (create_relationship db
          { source_ci_id := some a, target_ci_id := some c,
            relationship_type := some ty }).2 = .ok rel ∧
        rel.source_ci_id = a ∧
        get_relationships_for_ci
          (create_relationship db
            { source_ci_id := some a, target_ci_id := some c,
              relationship_type := some ty }).1 c (some "target") = .ok [rel]) := by
  obtain ⟨X, hX⟩ := Option.isSome_iff_exists.mp hc
  have hsrc : strLower "source" = "source" := by decide
  have htgt : strLower "target" = "target" := by decide
  have hall : strLower "all" = "all" := by decide
  refine ⟨?_, ?_, ?_, ?_, List.filter_sublist _, ?_, ?_⟩
  · rw [grfc_eval hX, hsrc, if_pos (by decide)]
  · rw [grfc_eval hX, htgt, if_neg (by decide), if_pos (by decide)]
  · rw [grfc_eval hX, hall, if_neg (by decide), if_neg (by decide), if_pos (by decide)]
  · intro r
    simp only [List.mem_filter, Bool.or_eq_true]
    tauto
  · intro s h1 h2 h3
    rw [grfc_eval hX, if_neg (by simpa using h1), if_neg (by simpa using h2),
      if_neg (by simpa using h3)]
  · intro a ty ha hty hac hempty
    obtain ⟨A, hA⟩ := Option.isSome_iff_exists.mp ha
    have hty2 : ty ∈ ALLOWED_RELATIONSHIP_TYPES := by simpa using hty
    have hr : create_relationship db
        { source_ci_id := some a, target_ci_id := some c,
          relationship_type := some ty } =
        ({ db with
           rels := db.rels ++
             [{ id := db.nextRelId, source_ci_id := a, target_ci_id := c,
                relationship_type := ty }],
           nextRelId := db.nextRelId + 1 },
         .ok { id := db.nextRelId, source_ci_id := a, target_ci_id := c,
               relationship_type := ty }) := by
      simp [create_relationship, hac, hty2, hA, hX]
    refine ⟨{ id := db.nextRelId, source_ci_id := a, target_ci_id := c,
              relationship_type := ty }, by rw [hr], rfl, ?_⟩
    simp only [hr]
    have hX2 : findCI
        { db with
          rels := db.rels ++
            [{ id := db.nextRelId, source_ci_id := a, target_ci_id := c,
               relationship_type := ty }],
          nextRelId := db.nextRelId + 1 } c = some X := hX
    rw [grfc_eval hX2 "target", htgt, if_neg (by decide), if_pos (by decide)]
    rw [List.filter_append, hempty]
    simp

/-- Concrete run of the amended C5: in the example database the target
query at CI 3 returns exactly the edge from CI 2, and a direction that
lowercases to neither source, target nor all is rejected with
ValidationError. -/
theorem c5_amended_list_by_endpoint_witness :
    get_relationships_for_ci dbExample 3 (some "target") = .ok [relBC] ∧
    get_relationships_for_ci dbExample 3 (some "sideways") =
      .error .validationError := by
  have h := c5_amended_list_by_endpoint dbExample 3 (by decide)
  exact ⟨h.2.1.trans (by decide),
    h.2.2.2.2.2.1 "sideways" (by decide) (by decide) (by decide)⟩

/-- C10: the direction parameter defaults to all when absent and is
lowercased before being checked, so mixed-case values such as SOURCE, All
or Target are accepted as the corresponding direction rather than
rejected; on an existing CI, SOURCE answers the source listing. -/
theorem c10_direction_default_and_lowercase (db : DB) (c : Nat) :
    get_relationships_for_ci db c none = get_relationships_for_ci db c (some "all") ∧
    get_relationships_for_ci db c (some "SOURCE")
      = get_relationships_for_ci db c (some "source") ∧
    get_relationships_for_ci db c (some "All")
      = get_relationships_for_ci db c (some "all") ∧
    get_relationships_for_ci db c (some "Target")
      = get_relationships_for_ci db c (some "target") ∧
    ((findCI db c).isSome →
      get_relationships_for_ci db c (some "SOURCE")
        = .ok (db.rels.filter (fun r => r.source_ci_id == c))) := by
  have h1 : strLower "SOURCE" = "source" := by decide
  have h3 : strLower "All" = "all" := by decide
  have h5 : strLower "Target" = "target" := by decide
  refine ⟨rfl, ?_, ?_, ?_, ?_⟩
  · unfold get_relationships_for_ci
    cases findCI db c <;> simp [h1, show strLower "source" = "source" from by decide]
  · unfold get_relationships_for_ci
    cases findCI db c <;> simp [h3, show strLower "all" = "all" from by decide]
  · unfold get_relationships_for_ci
    cases findCI db c <;> simp [h5, show strLower "target" = "target" from by decide]
  · intro hc
    obtain ⟨X, hX⟩ := Option.isSome_iff_exists.mp hc
    rw [grfc_eval hX, h1, if_pos (by decide)]

/-- Concrete run of C10: on the example database, direction SOURCE at CI 2
behaves as source and an absent direction behaves as all. -/
theorem c10_direction_default_and_lowercase_witness :
    get_relationships_for_ci dbExample 2 (some "SOURCE") = .ok [relBC] ∧
    get_relationships_for_ci dbExample 2 none = .ok [relAB, relBC] := by
  have h := c10_direction_default_and_lowercase dbExample 2
  exact ⟨(h.2.2.2.2 (by decide)).trans (by decide), h.1.trans (by decide)⟩
